import Mathlib

/-!
Shallow embedding of the audit-service core: the generic paginated store
accessor `BaseDal` (src/unnamed/part_001) and the audit-log creation workflow
`AuditService.createAuditLog` (src/unnamed/part_000).

Modelling conventions:
* Identifiers are opaque unique strings (uuid v4) in the source; they are
  modelled as naturals drawn from a fresh-id supply `nextId` carried by the
  store (uuid collisions never happen, which the supply invariant `Store.WF`
  captures).
* Timestamps (milliseconds since epoch) are naturals; `Date.now()` becomes an
  explicit `now` argument of the operations that read the clock.
* The external document store (DynamoDB via dynamoose) is, per spec section 6,
  a collaborator providing a partition queryable by organization with
  key-ordered scans, a resumable cursor, and monotone creation timestamps.
  A store is modelled as the list of its items in creation order; a query is a
  pure function of that list. The page `limit` counts scanned items before
  filter expressions are applied, and a last evaluated key is reported exactly
  when the scan stopped at the limit with items of the partition remaining,
  matching DynamoDB query semantics.
* Thrown `BadRequestException`s become the `Except ErrorMsg` monad; the
  `ErrorMsg` payload records which i18n message was selected and with which
  arguments, so distinct error conditions stay distinguishable exactly when
  their messages are.
-/

set_option autoImplicit false

deriving instance DecidableEq for Except

namespace AuditSvc

/-- Error payloads of the `BadRequestException`s thrown by the core, one
constructor per i18n message used in src/unnamed/part_000 and part_001. -/
inductive ErrorMsg where
  | documentNotOfOrganization (modelName : String) (id : Nat) (organizationId : Nat)
  | entityNotFound (modelName : String) (id : Nat)
  | categoryNotFound (id : Nat)
  | subCategoryNotFound (id : Nat)
  | actionTypeNotFound (id : Nat)
deriving Repr, DecidableEq

/-- Shape shared by the Category / SubCategory / ActionType reference entities
(src/src/models/sub-category.ts and its siblings): identifier, organization
reference, name, description, soft-delete marker and store-managed timestamps.
`BaseDal` is generic over any entity with the identifier / organization /
deletedAt capability; this shape is its representative instantiation. -/
structure Entity where
  id : Nat
  organizationId : Nat
  name : String
  description : String
  deletedAt : Option Nat
  createdAt : Nat
  updatedAt : Nat
deriving Repr, DecidableEq

/-- Persisted AuditLog shape (src/unnamed/part_002). -/
structure AuditLog where
  id : Nat
  organizationId : Nat
  userId : Nat
  facilityId : Option Nat
  method : String
  url : String
  categoryId : Option Nat
  subCategoryId : Option Nat
  actionTypeId : Option Nat
  deletedAt : Option Nat
  createdAt : Nat
  updatedAt : Nat
deriving Repr, DecidableEq

/-- Capability `BaseDal<T extends IBaseAudit>` requires of its entity type: an
identifier, an organization reference, a soft-delete marker, and the key
stamping `{ ...data, id, organizationId }` performed by `create`. -/
class IBaseAudit (T : Type) where
  getId : T → Nat
  getOrganizationId : T → Nat
  getDeletedAt : T → Option Nat
  withKeys : T → Nat → Nat → T

instance : IBaseAudit Entity where
  getId := Entity.id
  getOrganizationId := Entity.organizationId
  getDeletedAt := Entity.deletedAt
  withKeys := fun e i org => { e with id := i, organizationId := org }

instance : IBaseAudit AuditLog where
  getId := AuditLog.id
  getOrganizationId := AuditLog.organizationId
  getDeletedAt := AuditLog.deletedAt
  withKeys := fun e i org => { e with id := i, organizationId := org }

open IBaseAudit

/-- State of one table of the store: its items in creation order, plus the
fresh-identifier supply standing in for the uuid v4 generator. -/
structure Store (T : Type) where
  entities : List T
  nextId : Nat
deriving Repr, DecidableEq

/-- Well-formedness maintained by the store and the identifier generator:
identifiers are pairwise distinct, and every stored identifier was drawn from
the supply (so the next draw is fresh). -/
def Store.WF {T : Type} [IBaseAudit T] (s : Store T) : Prop :=
  (s.entities.map (fun e => getId e)).Nodup ∧ ∀ e ∈ s.entities, getId e < s.nextId

/-- Pagination query (`DynamoPaginationQueryDto`): page size and optional
resume cursor. -/
structure DynamoPaginationQueryDto where
  itemsPerPage : Nat
  lastId : Option Nat
deriving Repr, DecidableEq

/-- Pagination result (`TPaginationResult`): the page and the cursor of the
last evaluated key, absent once the final page is reached. -/
structure TPaginationResult (T : Type) where
  lastId : Option Nat
  data : List T
deriving Repr, DecidableEq

/-- Organization partition of a table: the items whose organizationId equals
the requested one, in creation order (the ordering the store's partition query
provides, spec section 6). -/
def Store.partitionOf {T : Type} [IBaseAudit T] (s : Store T) (organizationId : Nat) : List T :=
  s.entities.filter (fun e => getOrganizationId e == organizationId)

/-- Scan start of a resumable partition query: without a cursor the scan
starts at the head of the partition; with `startAt` keyed by `lastId` it
starts strictly after the item carrying that identifier. -/
def scanFrom {T : Type} [IBaseAudit T] (l : List T) : Option Nat → List T
  | none => l
  | some lid => (l.dropWhile (fun e => getId e != lid)).tail

/-- `BaseDal.paginatedFind` (src/unnamed/part_001): queries the organization
partition with `limit(itemsPerPage)`, resumes with `startAt` strictly after the
item keyed `lastId` when supplied, applies the `deletedAt not exists` filter
expression to the scanned items, and reports `lastKey.id` as the next cursor
when the scan stopped at the limit with partition items remaining. -/
def paginatedFind {T : Type} [IBaseAudit T] (s : Store T) (organizationId : Nat)
    (pagination : DynamoPaginationQueryDto) : TPaginationResult T :=
  let afterCursor := scanFrom (s.partitionOf organizationId) pagination.lastId
  let pageRaw := afterCursor.take pagination.itemsPerPage
  let lastKey :=
    if pagination.itemsPerPage < afterCursor.length then
      pageRaw.getLast?.map (fun e => getId e)
    else none
  { lastId := lastKey, data := pageRaw.filter (fun e => (getDeletedAt e).isNone) }

/-- `BaseDal.find` (src/unnamed/part_001): all live items of the organization,
ascending by creation order. -/
def find {T : Type} [IBaseAudit T] (s : Store T) (organizationId : Nat) : List T :=
  (s.partitionOf organizationId).filter (fun e => (getDeletedAt e).isNone)

/-- `BaseDal.findById` (src/unnamed/part_001): global point query by
identifier (`query(id).eq(id).limit(1)`, not scoped to the organization),
then an organization check that throws `documentNotOfOrganization` on a
mismatch; an absent identifier yields no entity and no error. -/
def findById {T : Type} [IBaseAudit T] (modelName : String) (s : Store T)
    (organizationId : Nat) (id : Nat) : Except ErrorMsg (Option T) :=
  match (s.entities.filter (fun e => getId e == id)).head? with
  | some e =>
    if getOrganizationId e != organizationId then
      .error (.documentNotOfOrganization modelName id organizationId)
    else
      .ok (some e)
  | none => .ok none

/-- `BaseDal.create` (src/unnamed/part_001): builds
`{ ...data, id: uuid.v4(), organizationId }` (the spread stamps a fresh
identifier and the caller's organizationId over anything in the payload) and
saves it; the store appends in creation order. -/
def create {T : Type} [IBaseAudit T] (s : Store T) (organizationId : Nat) (data : T) :
    Store T × T :=
  let entity := withKeys data s.nextId organizationId
  ({ entities := s.entities ++ [entity], nextId := s.nextId + 1 }, entity)

/-- Payload `Partial<T>` of `BaseDal.update`, restricted to the mutable fields
of the reference-entity shape: a field that is absent is left untouched, a
present field is written by the `$SET` merge. -/
structure UpdateData where
  name : Option String
  description : Option String
  deletedAt : Option (Option Nat)
deriving Repr, DecidableEq

/-- `$SET` merge of an update payload into a stored entity: supplied fields
are overwritten, absent fields keep their prior values, and the store-managed
`updatedAt` timestamp is set to the current time (dynamoose schema
timestamps). -/
def Entity.applySet (e : Entity) (data : UpdateData) (now : Nat) : Entity :=
  { e with
    name := data.name.getD e.name
    description := data.description.getD e.description
    deletedAt := data.deletedAt.getD e.deletedAt
    updatedAt := now }

/-- `BaseDal.update` (src/unnamed/part_001): loads via `findById` (propagating
its organization-mismatch error), throws `Entity ... not found` when nothing
was loaded, otherwise applies the `$SET` merge to the item with that key and
returns the updated entity. A thrown error leaves the store untouched. -/
def update (modelName : String) (s : Store Entity) (organizationId : Nat) (id : Nat)
    (data : UpdateData) (now : Nat) : Except ErrorMsg (Store Entity × Entity) :=
  match findById modelName s organizationId id with
  | .error err => .error err
  | .ok none => .error (.entityNotFound modelName id)
  | .ok (some entity) =>
    let updated := entity.applySet data now
    .ok ({ s with entities := s.entities.map (fun x => if x.id == entity.id then updated else x) },
      updated)

/-- `BaseDal.delete` (src/unnamed/part_001): soft delete, implemented as
`update` with `{ deletedAt: Date.now() }`; returns `true` whenever the update
succeeded. -/
def delete (modelName : String) (s : Store Entity) (organizationId : Nat) (id : Nat)
    (now : Nat) : Except ErrorMsg (Store Entity × Bool) :=
  match update modelName s organizationId id ⟨none, none, some (some now)⟩ now with
  | .error err => .error err
  | .ok (s1, _) => .ok (s1, true)

/-- Creation payload `CreateAuditLogDto` (src/unnamed/part_000): the three
foreign keys are optional. -/
structure CreateAuditLogDto where
  userId : Nat
  facilityId : Option Nat
  method : String
  url : String
  categoryId : Option Nat
  subCategoryId : Option Nat
  actionTypeId : Option Nat
deriving Repr, DecidableEq

/-- Mapping of the creation DTO into the persisted AuditLog shape
(`mapper.map(auditLogDto, AuditLogDto, AuditLog)`; the projection layer is
assumed lossless for the listed fields, spec section 6). The identifier and
organizationId here are placeholders: `BaseDal.create` overrides both. -/
def CreateAuditLogDto.toAuditLog (dto : CreateAuditLogDto) : AuditLog :=
  { id := 0
    organizationId := 0
    userId := dto.userId
    facilityId := dto.facilityId
    method := dto.method
    url := dto.url
    categoryId := dto.categoryId
    subCategoryId := dto.subCategoryId
    actionTypeId := dto.actionTypeId
    deletedAt := none
    createdAt := 0
    updatedAt := 0 }

/-- Modelled from the spec: `useConditionalPromise` and `promiseAllSettled`
come from the external `bondsports` general package and are not under src/.
Per spec sections 4.2 and 5, a lookup runs only when its foreign key is
present, all requested lookups are awaited together (no fail-fast on a
rejection), and each slot's settled outcome is collected: a slot that was
skipped, whose lookup resolved to nothing, or whose lookup was rejected,
carries no entity. -/
def settledConditionalLookup (s : Store Entity) (modelName : String)
    (organizationId : Nat) (refId : Option Nat) : Option Entity :=
  match refId with
  | none => none
  | some rid =>
    match findById modelName s organizationId rid with
    | .ok v => v
    | .error _ => none

/-- `AuditService.createAuditLog` (src/unnamed/part_000): resolves each of the
three foreign keys only if supplied, then checks the settled outcomes in the
fixed order category, sub-category, action-type, throwing the matching
`...NotFound` validation error for the first supplied-but-unresolved
reference; when every supplied reference resolved, persists the mapped record
via `auditLogDal.create`. -/
def createAuditLog (categories subCategories actionTypes : Store Entity)
    (auditLogs : Store AuditLog) (organizationId : Nat) (dto : CreateAuditLogDto) :
    Except ErrorMsg (Store AuditLog × AuditLog) :=
  let category := settledConditionalLookup categories "Category" organizationId dto.categoryId
  let subCategory :=
    settledConditionalLookup subCategories "SubCategory" organizationId dto.subCategoryId
  let actionType :=
    settledConditionalLookup actionTypes "ActionType" organizationId dto.actionTypeId
  if category.isNone && dto.categoryId.isSome then
    .error (.categoryNotFound (dto.categoryId.getD 0))
  else if subCategory.isNone && dto.subCategoryId.isSome then
    .error (.subCategoryNotFound (dto.subCategoryId.getD 0))
  else if actionType.isNone && dto.actionTypeId.isSome then
    .error (.actionTypeNotFound (dto.actionTypeId.getD 0))
  else
    .ok (create auditLogs organizationId dto.toAuditLog)

/-- Iterated pagination (spec section 8): starting from a cursor, call
`paginatedFind`, and while a cursor is returned, call again with it,
concatenating the pages. `fuel` bounds the number of calls; the theorems pick
it at least the table size, which the iteration never exceeds. -/
def collectPages {T : Type} [IBaseAudit T] (s : Store T) (organizationId itemsPerPage : Nat)
    (cursor : Option Nat) : Nat → List T
  | 0 => []
  | fuel + 1 =>
    let r := paginatedFind s organizationId ⟨itemsPerPage, cursor⟩
    match r.lastId with
    | none => r.data
    | some c => r.data ++ collectPages s organizationId itemsPerPage (some c) fuel

/-- Concrete sample reference entity used by the witnesses: identifier 1,
organization 1, live. -/
def sampleEntity : Entity :=
  { id := 1, organizationId := 1, name := "Billing", description := "d",
    deletedAt := none, createdAt := 0, updatedAt := 0 }

/-- Concrete one-entity store used by the witnesses. -/
def sampleStore : Store Entity := { entities := [sampleEntity], nextId := 2 }

/-- Soft-deleted sample entity of organization 1. -/
def sampleEntityDeleted : Entity :=
  { id := 2, organizationId := 1, name := "Refunds", description := "",
    deletedAt := some 5, createdAt := 1, updatedAt := 5 }

/-- Sample entity of organization 2. -/
def sampleEntityOrg2 : Entity :=
  { id := 3, organizationId := 2, name := "Other", description := "",
    deletedAt := none, createdAt := 2, updatedAt := 2 }

/-- Second live sample entity of organization 1. -/
def sampleEntityLater : Entity :=
  { id := 4, organizationId := 1, name := "Memberships", description := "",
    deletedAt := none, createdAt := 3, updatedAt := 3 }

/-- Four-entity store mixing organizations and a soft-deleted item, used by
the pagination witnesses. -/
def sampleStore4 : Store Entity :=
  { entities := [sampleEntity, sampleEntityDeleted, sampleEntityOrg2, sampleEntityLater],
    nextId := 5 }

/-- Supplied reference that resolves within the organization: the store's
first identifier match exists and belongs to the organization (the outcome the
settled conditional lookup reports an entity for). -/
def resolvesIn (s : Store Entity) (org rid : Nat) : Bool :=
  (s.entities.filter (fun x => getId x == rid)).head?.any (fun x => getOrganizationId x == org)

/-- Empty audit-log table used by the creation witnesses. -/
def sampleAuditStore : Store AuditLog := { entities := [], nextId := 1 }

/-- Creation payload carrying only a (dangling) category reference. -/
def sampleDtoCat : CreateAuditLogDto :=
  { userId := 42, facilityId := none, method := "POST", url := "/payments",
    categoryId := some 5, subCategoryId := none, actionTypeId := none }

/-- Creation payload with all three foreign keys absent. -/
def sampleDtoBare : CreateAuditLogDto :=
  { userId := 42, facilityId := none, method := "POST", url := "/payments",
    categoryId := none, subCategoryId := none, actionTypeId := none }

/-- Creation payload with two dangling references (category and action type). -/
def sampleDtoTwoBad : CreateAuditLogDto :=
  { userId := 42, facilityId := none, method := "POST", url := "/payments",
    categoryId := some 5, subCategoryId := none, actionTypeId := some 6 }

/-- Creation payload whose category resolves but whose sub-category and action
type are dangling. -/
def sampleDtoSubBad : CreateAuditLogDto :=
  { userId := 42, facilityId := none, method := "POST", url := "/payments",
    categoryId := some 1, subCategoryId := some 5, actionTypeId := some 6 }

/-! ## Helper lemmas -/

theorem mem_partitionOf {T : Type} [IBaseAudit T] {s : Store T} {org : Nat} {e : T}
    (h : e ∈ s.partitionOf org) : e ∈ s.entities ∧ getOrganizationId e = org := by
  simpa [Store.partitionOf] using h

theorem scanFrom_sublist {T : Type} [IBaseAudit T] (l : List T) (c : Option Nat) :
    List.Sublist (scanFrom l c) l := by
  cases c with
  | none => exact List.Sublist.refl l
  | some lid => exact (List.tail_sublist _).trans (List.dropWhile_sublist _)

theorem paginatedFind_data_sublist {T : Type} [IBaseAudit T] (s : Store T) (org : Nat)
    (pg : DynamoPaginationQueryDto) : List.Sublist (paginatedFind s org pg).data (s.partitionOf org) := by
  simp only [paginatedFind]
  exact (List.filter_sublist _).trans ((List.take_sublist _ _).trans (scanFrom_sublist _ _))

theorem paginatedFind_data_live {T : Type} [IBaseAudit T] {s : Store T} {org : Nat}
    {pg : DynamoPaginationQueryDto} {e : T} (h : e ∈ (paginatedFind s org pg).data) :
    getDeletedAt e = none := by
  simp only [paginatedFind] at h
  have := List.of_mem_filter h
  simpa [Option.isNone_iff_eq_none] using this

theorem dropWhile_middle {α : Type} (p : α → Bool) (l1 l2 : List α) (x : α)
    (h1 : ∀ a ∈ l1, p a = true) (hx : p x = false) :
    (l1 ++ x :: l2).dropWhile p = x :: l2 := by
  induction l1 with
  | nil => simp [List.dropWhile_cons, hx]
  | cons a t ih =>
    have ha : p a = true := h1 a (List.mem_cons_self a t)
    simpa [List.dropWhile_cons, ha] using ih (fun b hb => h1 b (List.mem_cons_of_mem a hb))

theorem scanFrom_eq_drop {T : Type} [IBaseAudit T] {l : List T}
    (hnd : (l.map (fun e => getId e)).Nodup) {k : Nat} (hk : k < l.length) {lid : Nat}
    (hlid : getId l[k] = lid) : scanFrom l (some lid) = l.drop (k + 1) := by
  have hdecomp : l = l.take k ++ l[k] :: l.drop (k + 1) := by
    conv_lhs => rw [← List.take_append_drop k l]
    rw [List.drop_eq_getElem_cons hk]
  have hpre : ∀ a ∈ l.take k, (fun e => getId e != lid) a = true := by
    intro a ha
    rw [List.mem_take_iff_getElem] at ha
    obtain ⟨i, hi, hia⟩ := ha
    have hik : i < k := lt_of_lt_of_le hi inf_le_left
    have hil : i < l.length := lt_of_lt_of_le hi inf_le_right
    have hmap : ¬ ((l.map (fun e => getId e)).get ⟨i, by simpa using hil⟩ =
        (l.map (fun e => getId e)).get ⟨k, by simpa using hk⟩) := by
      simp only [List.get_eq_getElem]
      rw [hnd.getElem_inj_iff]
      omega
    simp only [List.get_eq_getElem, List.getElem_map] at hmap
    subst hia
    simpa [← hlid] using hmap
  have hx : (fun e => getId e != lid) l[k] = false := by simp [hlid]
  have hdw : l.dropWhile (fun e => getId e != lid) = l[k] :: l.drop (k + 1) := by
    conv_lhs => rw [hdecomp]
    exact dropWhile_middle _ _ _ _ hpre hx
  simp [scanFrom, hdw]

/-! ## C1 -/

/-- C1 (counterexample): in a store holding the single entity with identifier 1
under organization 1, the organization-2 scoped `findById` of identifier 1
raises the dedicated cross-organization error, while a genuinely absent
identifier yields no entity and no error — so the cross-organization case is
distinguishable from "not found", refuting the claim as stated. -/
theorem findById_crossOrg_distinguishable_cex :
    sampleEntity ∈ sampleStore.entities ∧ sampleEntity.id = 1 ∧
      sampleEntity.organizationId ≠ 2 ∧
      findById "Category" sampleStore 2 1 =
        .error (.documentNotOfOrganization "Category" 1 2) ∧
      findById "Category" sampleStore 2 99 = .ok none ∧
      findById "Category" sampleStore 2 1 ≠ findById "Category" sampleStore 2 99 := by
  refine ⟨by decide, by decide, by decide, by decide, by decide, by decide⟩

/-- C1 (amended): when the supplied identifier resolves to a stored entity
whose organizationId differs from the requested one, `findById` does not
return the entity, but instead of reporting "not found" it raises the
cross-organization error `documentNotOfOrganization` naming the model, the
identifier and the requested organization — an outcome distinguishable from an
absent identifier, which yields no entity and no error. -/
theorem findById_crossOrg_raises_mismatch {T : Type} [IBaseAudit T] (modelName : String)
    (s : Store T) (org id : Nat) (e : T)
    (hfirst : (s.entities.filter (fun x => getId x == id)).head? = some e)
    (horg : getOrganizationId e ≠ org) :
    findById modelName s org id = .error (.documentNotOfOrganization modelName id org) ∧
      findById modelName s org id ≠ .ok none := by
  constructor
  · simp [findById, hfirst, horg]
  · simp [findById, hfirst, horg]

/-- Witness for the amended C1 theorem at the sample store. -/
theorem findById_crossOrg_raises_mismatch_witness :
    findById "Category" sampleStore 2 1 =
      .error (.documentNotOfOrganization "Category" 1 2) ∧
      findById "Category" sampleStore 2 1 ≠ .ok none :=
  findById_crossOrg_raises_mismatch "Category" sampleStore 2 1 sampleEntity
    (by decide) (by decide)

/-! ## C5 -/

/-- C5: `create` stores and returns an entity whose organizationId is the
argument and whose identifier is freshly drawn from the supply — not among the
stored identifiers, and independent of whatever id or organizationId the
payload carried — and it preserves the identifier-uniqueness invariant. -/
theorem create_stamps_fresh_identity (s : Store Entity) (org : Nat) (data : Entity)
    (hwf : s.WF) :
    (create s org data).2.organizationId = org ∧
      (create s org data).2 ∈ (create s org data).1.entities ∧
      (create s org data).2.id ∉ s.entities.map Entity.id ∧
      (∀ other : Entity, (create s org other).2.id = (create s org data).2.id ∧
        (create s org other).2.organizationId = org) ∧
      (create s org data).1.WF := by
  obtain ⟨hnd, hlt⟩ := hwf
  refine ⟨rfl, by simp [create], ?_, fun other => ⟨rfl, rfl⟩, ?_, ?_⟩
  · intro hmem
    simp only [create, withKeys, List.mem_map] at hmem
    obtain ⟨e, he, heq⟩ := hmem
    exact absurd heq (Nat.ne_of_gt (hlt e he)).symm
  · simp only [create, Store.WF, List.map_append, List.map_cons, List.map_nil]
    rw [List.nodup_append]
    refine ⟨by simpa [IBaseAudit.getId] using hnd, List.nodup_singleton _, ?_⟩
    intro a ha
    simp only [List.mem_map] at ha
    obtain ⟨e, he, heq⟩ := ha
    have := hlt e he
    simp only [IBaseAudit.getId] at this heq ⊢
    intro hb
    simp only [withKeys, List.mem_singleton] at hb
    subst hb
    omega
  · intro e he
    simp only [create, List.mem_append, List.mem_singleton] at he
    rcases he with he | he
    · exact Nat.lt_succ_of_lt (hlt e he)
    · subst he
      exact Nat.lt_succ_self _

/-- Witness for C5 at the sample store and a payload that tries to smuggle in
its own id and organizationId. -/
theorem create_stamps_fresh_identity_witness :
    (create sampleStore 7 { sampleEntity with id := 1, organizationId := 9 }).2.organizationId
        = 7 ∧
      (create sampleStore 7 { sampleEntity with id := 1, organizationId := 9 }).2 ∈
        (create sampleStore 7 { sampleEntity with id := 1, organizationId := 9 }).1.entities ∧
      (create sampleStore 7 { sampleEntity with id := 1, organizationId := 9 }).2.id ∉
        sampleStore.entities.map Entity.id ∧
      (∀ other : Entity,
        (create sampleStore 7 other).2.id =
          (create sampleStore 7 { sampleEntity with id := 1, organizationId := 9 }).2.id ∧
        (create sampleStore 7 other).2.organizationId = 7) ∧
      (create sampleStore 7 { sampleEntity with id := 1, organizationId := 9 }).1.WF :=
  create_stamps_fresh_identity sampleStore 7 _ ⟨by decide, by decide⟩

/-! ## C9 -/

/-- C9: cross-organization isolation — an entity of organization O1 is, for
any O2 different from O1, never among the results of `find` scoped to O2, nor
of any page of `paginatedFind` scoped to O2, and `findById` scoped to O2 never
returns it whatever identifier is supplied (identifier collisions included). -/
theorem crossOrg_isolation (s : Store Entity) (o1 o2 : Nat) (e : Entity)
    (horg : e.organizationId = o1) (hne : o1 ≠ o2) :
    e ∉ find s o2 ∧
      (∀ pg : DynamoPaginationQueryDto, e ∉ (paginatedFind s o2 pg).data) ∧
      (∀ modelName id, findById modelName s o2 id ≠ .ok (some e)) := by
  have hkey : ∀ x : Entity, x ∈ s.partitionOf o2 → x ≠ e := by
    intro x hx hxe
    have := (mem_partitionOf hx).2
    subst hxe
    simp only [IBaseAudit.getOrganizationId] at this
    exact hne (horg ▸ this)
  refine ⟨?_, ?_, ?_⟩
  · intro hmem
    exact hkey e (List.mem_of_mem_filter hmem) rfl
  · intro pg hmem
    exact hkey e ((paginatedFind_data_sublist s o2 pg).subset hmem) rfl
  · intro modelName id h
    simp only [findById] at h
    split at h
    case h_2 => simp at h
    case h_1 r hr =>
      split at h
      · exact Except.noConfusion h
      case isFalse hcond =>
        have hr2 : r = e := by
          have := congrArg (fun x => match x with | Except.ok v => v | _ => none) h
          simpa using this
        subst hr2
        have : getOrganizationId r = o2 := by
          simpa [bne_iff_ne] using hcond
        simp only [IBaseAudit.getOrganizationId] at this
        exact hne (horg ▸ this)

/-- Witness for C9 at the sample store. -/
theorem crossOrg_isolation_witness :
    sampleEntity ∉ find sampleStore 2 ∧
      (∀ pg : DynamoPaginationQueryDto, sampleEntity ∉ (paginatedFind sampleStore 2 pg).data) ∧
      (∀ modelName id, findById modelName sampleStore 2 id ≠ .ok (some sampleEntity)) :=
  crossOrg_isolation sampleStore 1 2 sampleEntity (by decide) (by decide)

/-! ## C4 -/

/-- C4: single-page contract of `paginatedFind` — every returned entity
belongs to the requested organization, none is soft-deleted, the page holds at
most itemsPerPage entities, and when the supplied lastId is the identifier of
the k-th entity of the organization partition (identifiers being unique),
every returned entity lies strictly after position k of the partition. -/
theorem paginatedFind_page_contract {T : Type} [IBaseAudit T] (s : Store T) (org : Nat)
    (pg : DynamoPaginationQueryDto)
    (hnd : (s.entities.map (fun e => getId e)).Nodup) :
    (∀ e ∈ (paginatedFind s org pg).data,
        getOrganizationId e = org ∧ getDeletedAt e = none) ∧
      (paginatedFind s org pg).data.length ≤ pg.itemsPerPage ∧
      (∀ lid k, ∀ hk : k < (s.partitionOf org).length,
        pg.lastId = some lid → getId ((s.partitionOf org)[k]) = lid →
        (paginatedFind s org pg).data ⊆ (s.partitionOf org).drop (k + 1)) := by
  refine ⟨?_, ?_, ?_⟩
  · intro e he
    exact ⟨(mem_partitionOf ((paginatedFind_data_sublist s org pg).subset he)).2,
      paginatedFind_data_live he⟩
  · simp only [paginatedFind]
    calc (List.filter _ _).length ≤ (List.take pg.itemsPerPage _).length :=
          List.length_filter_le _ _
      _ ≤ pg.itemsPerPage := by simp [List.length_take]
  · intro lid k hk hlast hid
    have hndp : ((s.partitionOf org).map (fun e => getId e)).Nodup :=
      (List.Sublist.map _ (List.filter_sublist _)).nodup hnd
    have hscan : scanFrom (s.partitionOf org) (some lid) = (s.partitionOf org).drop (k + 1) :=
      scanFrom_eq_drop hndp hk hid
    intro e he
    simp only [paginatedFind, hlast, hscan] at he
    exact (List.take_sublist _ _).subset (List.mem_of_mem_filter he)

/-- Witness for C4 at the four-entity sample store, resuming after the first
entity of organization 1. -/
theorem paginatedFind_page_contract_witness :
    (∀ e ∈ (paginatedFind sampleStore4 1 ⟨2, some 1⟩).data,
        getOrganizationId e = 1 ∧ getDeletedAt e = none) ∧
      (paginatedFind sampleStore4 1 ⟨2, some 1⟩).data.length ≤ 2 ∧
      (∀ lid k, ∀ hk : k < (sampleStore4.partitionOf 1).length,
        (some 1 : Option Nat) = some lid → getId ((sampleStore4.partitionOf 1)[k]) = lid →
        (paginatedFind sampleStore4 1 ⟨2, some 1⟩).data ⊆
          (sampleStore4.partitionOf 1).drop (k + 1)) :=
  paginatedFind_page_contract sampleStore4 1 ⟨2, some 1⟩ (by decide)

/-! ## C3 -/

/-- Invariant of the cursor iteration: when the scan start determined by the
cursor is the organization partition with its first k items dropped, and the
fuel exceeds what remains, the iteration returns exactly the live remainder of
the partition in order. -/
theorem collectPages_spec {T : Type} [IBaseAudit T] {s : Store T} {org P : Nat}
    (hnd : ((s.partitionOf org).map (fun e => getId e)).Nodup) (hP : 0 < P) :
    ∀ fuel k c, scanFrom (s.partitionOf org) c = (s.partitionOf org).drop k →
      (s.partitionOf org).length - k < fuel →
      collectPages s org P c fuel =
        ((s.partitionOf org).drop k).filter (fun e => (getDeletedAt e).isNone) := by
  intro fuel
  induction fuel with
  | zero => intro k c _ hf; omega
  | succ fuel ih =>
    intro k c hscan hfuel
    rw [collectPages]
    simp only [paginatedFind, hscan]
    by_cases hlt : P < ((s.partitionOf org).drop k).length
    · rw [if_pos hlt]
      have hlen : ((s.partitionOf org).drop k).length = (s.partitionOf org).length - k :=
        List.length_drop _ _
      have hPk : k + (P - 1) < (s.partitionOf org).length := by omega
      have hget : ((s.partitionOf org).drop k).get ⟨P - 1, by omega⟩ =
          (s.partitionOf org).get ⟨k + (P - 1), hPk⟩ := by
        simp only [List.get_eq_getElem]
        exact List.getElem_drop _
      have hlast : (((s.partitionOf org).drop k).take P).getLast? =
          some ((s.partitionOf org).get ⟨k + (P - 1), hPk⟩) := by
        rw [List.getLast?_take, if_neg (by omega)]
        rw [List.getElem?_eq_getElem (by omega)]
        exact congrArg some hget
      rw [hlast]
      simp only [Option.map_some']
      have hscan2 : scanFrom (s.partitionOf org)
          (some (getId ((s.partitionOf org).get ⟨k + (P - 1), hPk⟩))) =
          (s.partitionOf org).drop (k + P) := by
        have := scanFrom_eq_drop hnd hPk rfl
        rwa [show k + (P - 1) + 1 = k + P by omega] at this
      have hrec := ih (k + P) _ hscan2 (by omega)
      rw [hrec]
      rw [show (s.partitionOf org).drop (k + P) = ((s.partitionOf org).drop k).drop P by
        rw [List.drop_drop]]
      rw [← List.filter_append, List.take_append_drop]
    · rw [if_neg hlt]
      simp only []
      rw [List.take_of_length_le (le_of_not_lt hlt)]

/-- C3: pagination completeness — starting with no cursor and repeatedly
calling `paginatedFind` with each returned cursor until none is returned
yields exactly the live entities of the organization, each exactly once, in
creation order (the filter of the table in creation order), for any positive
page size; identifiers are unique per the store invariant. -/
theorem paginatedFind_completeness {T : Type} [IBaseAudit T] (s : Store T) (org P : Nat)
    (hP : 0 < P) (hnd : (s.entities.map (fun e => getId e)).Nodup) :
    collectPages s org P none (s.entities.length + 1) =
      s.entities.filter (fun e => getOrganizationId e == org && (getDeletedAt e).isNone) := by
  have hndp : ((s.partitionOf org).map (fun e => getId e)).Nodup :=
    (List.Sublist.map _ (List.filter_sublist _)).nodup hnd
  have hlen : (s.partitionOf org).length ≤ s.entities.length :=
    List.length_filter_le _ _
  have h := collectPages_spec hndp hP (s.entities.length + 1) 0 none rfl (by omega)
  rw [List.drop_zero] at h
  rw [h]
  simp [Store.partitionOf, List.filter_filter, Bool.and_comm]

/-- Witness for C3 at the four-entity sample store with page size 1: the
iteration returns the two live organization-1 entities in creation order. -/
theorem paginatedFind_completeness_witness :
    collectPages sampleStore4 1 1 none (sampleStore4.entities.length + 1) =
      sampleStore4.entities.filter
        (fun e => getOrganizationId e == 1 && (getDeletedAt e).isNone) :=
  paginatedFind_completeness sampleStore4 1 1 (by decide) (by decide)

/-! ## Update / delete helper lemmas -/

theorem mem_of_head?_eq {α : Type} {l : List α} {a : α} (h : l.head? = some a) : a ∈ l := by
  cases l with
  | nil => simp at h
  | cons b t =>
    simp only [List.head?_cons, Option.some.injEq] at h
    simp [h]

theorem head?_filter_prop {α : Type} (p : α → Bool) {l : List α} {a : α}
    (h : (l.filter p).head? = some a) : p a = true :=
  List.of_mem_filter (mem_of_head?_eq h)

/-- Characterization of `findById` when the point query has a first match in
the requested organization. -/
theorem findById_first_match {T : Type} [IBaseAudit T] (modelName : String) (s : Store T)
    {org id : Nat} {e : T}
    (hfirst : (s.entities.filter (fun x => getId x == id)).head? = some e)
    (horg : getOrganizationId e = org) :
    findById modelName s org id = .ok (some e) := by
  unfold findById
  rw [hfirst]
  simp [horg]

/-- Characterization of `findById` when the point query has no match. -/
theorem findById_no_match {T : Type} [IBaseAudit T] (modelName : String) (s : Store T)
    {org id : Nat}
    (hnone : (s.entities.filter (fun x => getId x == id)).head? = none) :
    findById modelName s org id = .ok none := by
  unfold findById
  rw [hnone]

/-- Characterization of `update` when `findById` loaded an entity. -/
theorem update_ok (modelName : String) (s : Store Entity) {org id : Nat} {e : Entity}
    (data : UpdateData) (now : Nat)
    (hfind : findById modelName s org id = .ok (some e)) :
    update modelName s org id data now =
      .ok ({ s with entities := s.entities.map (fun x => if x.id == e.id then e.applySet data now else x) },
        e.applySet data now) := by
  unfold update
  rw [hfind]

/-- Characterization of `update` when `findById` loaded nothing. -/
theorem update_not_found (modelName : String) (s : Store Entity) {org id : Nat}
    (data : UpdateData) (now : Nat)
    (hfind : findById modelName s org id = .ok none) :
    update modelName s org id data now = .error (.entityNotFound modelName id) := by
  unfold update
  rw [hfind]

/-- Characterization of `delete` when the underlying `update` succeeded. -/
theorem delete_ok (modelName : String) (s : Store Entity) {org id : Nat} (now : Nat)
    {s1 : Store Entity} {u : Entity}
    (hupd : update modelName s org id ⟨none, none, some (some now)⟩ now = .ok (s1, u)) :
    delete modelName s org id now = .ok (s1, true) := by
  unfold delete
  rw [hupd]

/-- Replacing, in a list, every element keyed like the first match of a filter
by a same-keyed element makes that element the new first match. -/
theorem head?_filter_map_replace {l : List Entity} {i : Nat} (e u : Entity)
    (hu : u.id = e.id) :
    (l.filter (fun x => x.id == i)).head? = some e →
    ((l.map (fun x => if x.id == e.id then u else x)).filter (fun x => x.id == i)).head? =
      some u := by
  induction l with
  | nil => intro h; simp at h
  | cons a t ih =>
    intro hfirst
    rw [List.filter_cons] at hfirst
    by_cases hai : (a.id == i) = true
    · rw [if_pos hai] at hfirst
      have hae : a = e := by simpa using hfirst
      have hacond : (a.id == e.id) = true := by rw [hae]; simp
      have hucond : (u.id == i) = true := by rw [hu, ← hae]; exact hai
      rw [List.map_cons, if_pos hacond, List.filter_cons, if_pos hucond]
      simp
    · rw [if_neg hai] at hfirst
      have hei : e.id = i := by
        simpa using head?_filter_prop (fun x : Entity => x.id == i) hfirst
      have hane : ¬ (a.id == e.id) = true := by
        rw [hei]
        exact hai
      rw [List.map_cons, if_neg hane, List.filter_cons, if_neg hai]
      exact ih hfirst

/-! ## C6 -/

/-- C6: partial-update frame property — on an entity of the organization,
`update` succeeds and returns the merged entity: each supplied field takes its
new value, each absent field and the identity fields keep their prior values,
`updatedAt` advances to the (later) current time, the merged entity is stored,
and every entity with a different identifier is still stored; on an identifier
with no entity at all, `update` fails with the not-found error and, the thrown
error carrying no store, the store is left as it was. -/
theorem update_partial_merge_frame (modelName : String) (s : Store Entity) (org id : Nat)
    (data : UpdateData) (now : Nat) :
    (∀ e : Entity, (s.entities.filter (fun x => x.id == id)).head? = some e →
      e.organizationId = org → e.updatedAt < now →
      ∃ s1 u, update modelName s org id data now = .ok (s1, u) ∧
        u.name = data.name.getD e.name ∧
        u.description = data.description.getD e.description ∧
        u.deletedAt = data.deletedAt.getD e.deletedAt ∧
        u.id = e.id ∧ u.organizationId = e.organizationId ∧ u.createdAt = e.createdAt ∧
        u.updatedAt = now ∧ e.updatedAt < u.updatedAt ∧
        u ∈ s1.entities ∧
        (∀ x ∈ s.entities, x.id ≠ id → x ∈ s1.entities)) ∧
    ((s.entities.filter (fun x => x.id == id)).head? = none →
      update modelName s org id data now = .error (.entityNotFound modelName id)) := by
  constructor
  · intro e hfirst horg hnow
    have heid : e.id = id := by
      simpa using head?_filter_prop (fun x : Entity => x.id == id) hfirst
    have hmem : e ∈ s.entities := List.mem_of_mem_filter (mem_of_head?_eq hfirst)
    have hfind : findById modelName s org id = .ok (some e) :=
      findById_first_match modelName s hfirst horg
    have hupd := update_ok modelName s data now hfind
    refine ⟨_, _, hupd, rfl, rfl, rfl, rfl, rfl, rfl, rfl, hnow, ?_, ?_⟩
    · have hself : (e.id == e.id) = true := by simp
      exact List.mem_map.mpr ⟨e, hmem, if_pos hself⟩
    · intro x hx hxid
      refine List.mem_map.mpr ⟨x, hx, ?_⟩
      have hne : ¬ (x.id == e.id) = true := by
        rw [heid]
        simpa using hxid
      rw [if_neg hne]
  · intro hnone
    exact update_not_found modelName s data now (findById_no_match modelName s hnone)

/-- Witness for C6 at the sample store: updating only the name of entity 1,
and updating an absent identifier. -/
theorem update_partial_merge_frame_witness :
    (∃ s1 u, update "Category" sampleStore 1 1 ⟨some "X", none, none⟩ 10 = .ok (s1, u) ∧
      u.name = (some "X" : Option String).getD sampleEntity.name ∧
      u.description = (none : Option String).getD sampleEntity.description ∧
      u.deletedAt = (none : Option (Option Nat)).getD sampleEntity.deletedAt ∧
      u.id = sampleEntity.id ∧ u.organizationId = sampleEntity.organizationId ∧
      u.createdAt = sampleEntity.createdAt ∧
      u.updatedAt = 10 ∧ sampleEntity.updatedAt < u.updatedAt ∧
      u ∈ s1.entities ∧
      (∀ x ∈ sampleStore.entities, x.id ≠ 1 → x ∈ s1.entities)) ∧
    update "Category" sampleStore 1 99 ⟨some "X", none, none⟩ 10 =
      .error (.entityNotFound "Category" 99) :=
  ⟨(update_partial_merge_frame "Category" sampleStore 1 1 ⟨some "X", none, none⟩ 10).1
      sampleEntity (by decide) (by decide) (by decide),
    (update_partial_merge_frame "Category" sampleStore 1 99 ⟨some "X", none, none⟩ 10).2
      (by decide)⟩

/-! ## C7 -/

/-- C7: delete idempotence — deleting an entity of the organization succeeds
with `true`, deleting it again also succeeds with `true`, and after the first
delete no entity with that identifier appears in `find` nor in any page of
`paginatedFind` for the organization. -/
theorem delete_idempotent (modelName : String) (s : Store Entity) (org id : Nat)
    (now1 now2 : Nat) (e : Entity)
    (hfirst : (s.entities.filter (fun x => x.id == id)).head? = some e)
    (horg : e.organizationId = org) :
    ∃ s1 s2, delete modelName s org id now1 = .ok (s1, true) ∧
      delete modelName s1 org id now2 = .ok (s2, true) ∧
      (∀ x ∈ find s1 org, x.id ≠ id) ∧
      (∀ pg : DynamoPaginationQueryDto, ∀ x ∈ (paginatedFind s1 org pg).data, x.id ≠ id) := by
  have heid : e.id = id := by
    simpa using head?_filter_prop (fun x : Entity => x.id == id) hfirst
  have hfind1 : findById modelName s org id = .ok (some e) :=
    findById_first_match modelName s hfirst horg
  have hdel1 := delete_ok modelName s now1
    (update_ok modelName s ⟨none, none, some (some now1)⟩ now1 hfind1)
  have hfirst2 := head?_filter_map_replace e
    (e.applySet ⟨none, none, some (some now1)⟩ now1) rfl hfirst
  have hfind2 : findById modelName
      ({ s with entities := s.entities.map (fun x =>
        if x.id == e.id then e.applySet ⟨none, none, some (some now1)⟩ now1 else x) })
      org id = .ok (some (e.applySet ⟨none, none, some (some now1)⟩ now1)) :=
    findById_first_match modelName _ hfirst2 horg
  have hdel2 := delete_ok modelName _ now2
    (update_ok modelName _ ⟨none, none, some (some now2)⟩ now2 hfind2)
  have hkey : ∀ x ∈ (s.entities.map (fun x =>
      if x.id == e.id then e.applySet ⟨none, none, some (some now1)⟩ now1 else x)),
      x.deletedAt = none → x.id ≠ id := by
    intro x hx hlive hxid
    rw [List.mem_map] at hx
    obtain ⟨y, hy, hyx⟩ := hx
    by_cases hyid : (y.id == e.id) = true
    · rw [if_pos hyid] at hyx
      rw [← hyx] at hlive
      simp [Entity.applySet] at hlive
    · rw [if_neg hyid] at hyx
      rw [← hyx] at hxid
      rw [heid] at hyid
      simp [hxid] at hyid
  refine ⟨_, _, hdel1, hdel2, ?_, ?_⟩
  · intro x hx
    have hlive : x.deletedAt = none := by
      simpa [Option.isNone_iff_eq_none] using List.of_mem_filter hx
    exact hkey x (List.mem_of_mem_filter (List.mem_of_mem_filter hx)) hlive
  · intro pg x hx
    have hlive : x.deletedAt = none := paginatedFind_data_live hx
    exact hkey x (mem_partitionOf ((paginatedFind_data_sublist _ org pg).subset hx)).1 hlive

/-- Witness for C7 at the sample store, deleting entity 1 of organization 1
twice. -/
theorem delete_idempotent_witness :
    ∃ s1 s2, delete "Category" sampleStore 1 1 3 = .ok (s1, true) ∧
      delete "Category" s1 1 1 7 = .ok (s2, true) ∧
      (∀ x ∈ find s1 1, x.id ≠ 1) ∧
      (∀ pg : DynamoPaginationQueryDto, ∀ x ∈ (paginatedFind s1 1 pg).data, x.id ≠ 1) :=
  delete_idempotent "Category" sampleStore 1 1 3 7 sampleEntity (by decide) (by decide)

/-! ## C10 -/

/-- C10: `findById` does not filter on the soft-delete marker — it returns an
already soft-deleted entity of the organization; consequently `update` (for
any payload) and `delete` succeed on it, and the delete overwrites `deletedAt`
with the current time in the stored entity. -/
theorem findById_ignores_soft_delete (modelName : String) (s : Store Entity) (org id : Nat)
    (e : Entity) (d now : Nat)
    (hfirst : (s.entities.filter (fun x => x.id == id)).head? = some e)
    (horg : e.organizationId = org) (_hdel : e.deletedAt = some d) :
    findById modelName s org id = .ok (some e) ∧
      (∀ data : UpdateData, ∃ s1,
        update modelName s org id data now = .ok (s1, e.applySet data now)) ∧
      (∃ s1, delete modelName s org id now = .ok (s1, true) ∧
        (s1.entities.filter (fun x => x.id == id)).head? =
          some { e with deletedAt := some now, updatedAt := now }) := by
  have hfind : findById modelName s org id = .ok (some e) :=
    findById_first_match modelName s hfirst horg
  refine ⟨hfind, ?_, ?_⟩
  · intro data
    exact ⟨_, update_ok modelName s data now hfind⟩
  · refine ⟨_, delete_ok modelName s now
      (update_ok modelName s ⟨none, none, some (some now)⟩ now hfind), ?_⟩
    exact head?_filter_map_replace e { e with deletedAt := some now, updatedAt := now } rfl hfirst

/-- Witness for C10 at the four-entity store, whose entity 2 is already
soft-deleted in organization 1. -/
theorem findById_ignores_soft_delete_witness :
    findById "Category" sampleStore4 1 2 = .ok (some sampleEntityDeleted) ∧
      (∀ data : UpdateData, ∃ s1,
        update "Category" sampleStore4 1 2 data 9 =
          .ok (s1, sampleEntityDeleted.applySet data 9)) ∧
      (∃ s1, delete "Category" sampleStore4 1 2 9 = .ok (s1, true) ∧
        (s1.entities.filter (fun x => x.id == 2)).head? =
          some { sampleEntityDeleted with deletedAt := some 9, updatedAt := 9 }) :=
  findById_ignores_soft_delete "Category" sampleStore4 1 2 sampleEntityDeleted 5 9
    (by decide) (by decide) (by decide)


/-! ## Conditional-resolver helper lemmas -/

/-- Unfolding of the settled lookup on a supplied reference. -/
theorem settled_some_eq (s : Store Entity) (mn : String) (org rid : Nat) :
    settledConditionalLookup s mn org (some rid) =
      (match findById mn s org rid with
      | Except.ok v => v
      | Except.error _ => none) := rfl

/-- A supplied reference that does not resolve within the organization leaves
its settled slot empty (whether the identifier is absent from the table or
belongs to a different organization, in which case the lookup was rejected). -/
theorem settled_none_of_not_resolves {s : Store Entity} (mn : String) {org rid : Nat}
    (h : resolvesIn s org rid = false) :
    settledConditionalLookup s mn org (some rid) = none := by
  unfold resolvesIn at h
  rw [settled_some_eq]
  cases hh : (s.entities.filter (fun x : Entity => getId x == rid)).head? with
  | none => rw [findById_no_match mn s hh]
  | some x =>
    rw [hh] at h
    have hx : getOrganizationId x ≠ org := by simpa using h
    have hfind : findById mn s org rid = .error (.documentNotOfOrganization mn rid org) := by
      unfold findById
      rw [hh]
      simp [hx]
    rw [hfind]

/-- A supplied reference that resolves within the organization fills its
settled slot. -/
theorem settled_isSome_of_resolves {s : Store Entity} (mn : String) {org rid : Nat}
    (h : resolvesIn s org rid = true) :
    (settledConditionalLookup s mn org (some rid)).isSome = true := by
  unfold resolvesIn at h
  rw [settled_some_eq]
  cases hh : (s.entities.filter (fun x : Entity => getId x == rid)).head? with
  | none => rw [hh] at h; simp at h
  | some x =>
    rw [hh] at h
    have hx : getOrganizationId x = org := by simpa using h
    rw [findById_first_match mn s hh hx]
    rfl

/-! ## C2 -/

/-- C2: conditional resolution — a supplied categoryId that does not resolve
to an entity of the organization (the other two references being absent) makes
`createAuditLog` fail with the validation error naming the category reference
and the supplied identifier; with all three foreign keys absent no resolution
error is raised and the mapped record is persisted via `create`. -/
theorem createAuditLog_conditional_resolution :
    (∀ (cs scs ats : Store Entity) (als : Store AuditLog) (org : Nat)
        (dto : CreateAuditLogDto) (cid : Nat),
      dto.categoryId = some cid → dto.subCategoryId = none → dto.actionTypeId = none →
      resolvesIn cs org cid = false →
      createAuditLog cs scs ats als org dto = .error (.categoryNotFound cid)) ∧
    (∀ (cs scs ats : Store Entity) (als : Store AuditLog) (org : Nat)
        (dto : CreateAuditLogDto),
      dto.categoryId = none → dto.subCategoryId = none → dto.actionTypeId = none →
      createAuditLog cs scs ats als org dto = .ok (create als org dto.toAuditLog)) := by
  constructor
  · intro cs scs ats als org dto cid hc hs ha hres
    simp only [createAuditLog, hc, hs, ha]
    rw [settled_none_of_not_resolves _ hres]
    simp
  · intro cs scs ats als org dto hc hs ha
    simp only [createAuditLog, hc, hs, ha]
    simp [settledConditionalLookup]

/-- Witness for C2: a dangling category reference is rejected naming it, and a
payload with no references is persisted. -/
theorem createAuditLog_conditional_resolution_witness :
    createAuditLog sampleStore sampleStore sampleStore sampleAuditStore 1 sampleDtoCat =
      .error (.categoryNotFound 5) ∧
    createAuditLog sampleStore sampleStore sampleStore sampleAuditStore 1 sampleDtoBare =
      .ok (create sampleAuditStore 1 sampleDtoBare.toAuditLog) :=
  ⟨createAuditLog_conditional_resolution.1 sampleStore sampleStore sampleStore
      sampleAuditStore 1 sampleDtoCat 5 rfl rfl rfl (by decide),
    createAuditLog_conditional_resolution.2 sampleStore sampleStore sampleStore
      sampleAuditStore 1 sampleDtoBare rfl rfl rfl⟩

/-! ## C8 -/

/-- C8: the settled outcomes are checked in the fixed order category,
sub-category, action-type, and the error reported is the one of the first
supplied-but-unresolved reference in that order, whatever the later slots
hold — deterministic for the same inputs (the embedding is a pure function),
so a request with several bad references consistently reports the first
encountered one. -/
theorem createAuditLog_multi_failure_order :
    (∀ (cs scs ats : Store Entity) (als : Store AuditLog) (org : Nat)
        (dto : CreateAuditLogDto) (cid : Nat),
      dto.categoryId = some cid → resolvesIn cs org cid = false →
      createAuditLog cs scs ats als org dto = .error (.categoryNotFound cid)) ∧
    (∀ (cs scs ats : Store Entity) (als : Store AuditLog) (org : Nat)
        (dto : CreateAuditLogDto) (sid : Nat),
      (∀ cid, dto.categoryId = some cid → resolvesIn cs org cid = true) →
      dto.subCategoryId = some sid → resolvesIn scs org sid = false →
      createAuditLog cs scs ats als org dto = .error (.subCategoryNotFound sid)) ∧
    (∀ (cs scs ats : Store Entity) (als : Store AuditLog) (org : Nat)
        (dto : CreateAuditLogDto) (aid : Nat),
      (∀ cid, dto.categoryId = some cid → resolvesIn cs org cid = true) →
      (∀ sid, dto.subCategoryId = some sid → resolvesIn scs org sid = true) →
      dto.actionTypeId = some aid → resolvesIn ats org aid = false →
      createAuditLog cs scs ats als org dto = .error (.actionTypeNotFound aid)) := by
  have hclear : ∀ (s : Store Entity) (mn : String) (org : Nat) (ref : Option Nat),
      (∀ rid, ref = some rid → resolvesIn s org rid = true) →
      ((settledConditionalLookup s mn org ref).isNone && ref.isSome) = false := by
    intro s mn org ref hres
    cases href : ref with
    | none => simp
    | some rid =>
      obtain ⟨v, hv⟩ := Option.isSome_iff_exists.mp
        (settled_isSome_of_resolves mn (hres rid href))
      simp [hv]
  refine ⟨?_, ?_, ?_⟩
  · intro cs scs ats als org dto cid hc hres
    simp only [createAuditLog, hc]
    rw [settled_none_of_not_resolves _ hres]
    simp
  · intro cs scs ats als org dto sid hcat hs hres
    simp only [createAuditLog, hs]
    rw [settled_none_of_not_resolves _ hres]
    have := hclear cs "Category" org dto.categoryId hcat
    simp [this]
  · intro cs scs ats als org dto aid hcat hsub ha hres
    simp only [createAuditLog, ha]
    rw [settled_none_of_not_resolves _ hres]
    have h1 := hclear cs "Category" org dto.categoryId hcat
    have h2 := hclear scs "SubCategory" org dto.subCategoryId hsub
    simp [h1, h2]

/-- Witness for C8: a payload with a bad category and a bad action type
reports the category; a payload whose category resolves but whose sub-category
and action type are bad reports the sub-category. -/
theorem createAuditLog_multi_failure_order_witness :
    createAuditLog sampleStore sampleStore sampleStore sampleAuditStore 1 sampleDtoTwoBad =
      .error (.categoryNotFound 5) ∧
    createAuditLog sampleStore sampleStore sampleStore sampleAuditStore 1 sampleDtoSubBad =
      .error (.subCategoryNotFound 5) :=
  ⟨createAuditLog_multi_failure_order.1 sampleStore sampleStore sampleStore
      sampleAuditStore 1 sampleDtoTwoBad 5 rfl (by decide),
    createAuditLog_multi_failure_order.2.1 sampleStore sampleStore sampleStore
      sampleAuditStore 1 sampleDtoSubBad 5
      (by
        intro cid h
        rw [show sampleDtoSubBad.categoryId = some 1 from rfl] at h
        rw [← Option.some.inj h]
        decide)
      rfl (by decide)⟩

end AuditSvc
